import Mathlib

/-!
Verification of the lurker orchestration core (github.com/stefanpenner/lurker).

The Go sources are shallowly embedded: pure string/list manipulation is
translated directly; filesystem probes, `git` subprocess output and HTTP
responses are supplied by explicit environment records, so every embedded
function is a computable Lean function of its inputs.
-/

namespace Lurker

/-- `filepath.Join` on already-clean components (the program only joins
clean relative components under a base directory). -/
def joinPath (parts : List String) : String :=
  String.intercalate "/" parts

/-- `filepath.Base`: the last slash-separated component of a path. -/
def filepathBase (p : String) : String :=
  (p.splitOn "/").getLastD ""

/-- `watcher.IssueStatus` (watcher.go). -/
inductive IssueStatus
  | pending
  | reacted
  | cloning
  | cloneReady
  | claudeRunning
  | ready
  | failed
  | paused
  deriving DecidableEq, Repr

/-- `watcher.EventKind` (watcher.go). -/
inductive EventKind
  | pollStart
  | pollDone
  | issueFound
  | reacted
  | cloneStart
  | cloneDone
  | claudeStart
  | claudeLog
  | claudeDone
  | ready
  | error
  deriving DecidableEq, Repr

/-- The filesystem / subprocess facts the watcher consults.
`dirExists p` models `os.Stat(p)` succeeding; `gitLogRange wd b` models
the result of `git log --oneline origin/main..b` run in `wd` (`none` is
a failing command, `some out` its stdout); `persistedLog repo num`
models the lines of `<baseDir>/<repo>/<num>/lurker.log` (`none` when
the file is missing or unreadable). -/
structure FSEnv where
  dirExists : String → Bool
  gitLogRange : String → String → Option String
  persistedLog : String → Int → Option (List String)

/-- The per-issue branch name `agent/issue-<n>` (watcher.go). -/
def agentBranch (num : Int) : String :=
  "agent/issue-" ++ toString num

/-- The per-issue working directory `<baseDir>/<repo>/<num>/<basename-of-repo>`
built by `DeriveIssueStatus` and `processIssue` (watcher.go). -/
def issueWorkdir (baseDir repo : String) (num : Int) : String :=
  joinPath [baseDir, repo, toString num, filepathBase repo]

/-- Go's `unicode.IsSpace` restricted to the whitespace that git output can
contain. -/
def isSpaceChar (c : Char) : Bool :=
  c = ' ' || c = '\t' || c = '\n' || c = '\x0b' || c = '\x0c' || c = '\r'

/-- Models `len(strings.TrimSpace(s)) > 0`: the string has a character that
is not whitespace. -/
def trimSpaceNonEmpty (s : String) : Bool :=
  s.data.any (fun c => !isSpaceChar c)

/-- Whether `git log --oneline origin/main..<branch>` run in `wd` succeeds
with non-blank output — the code's test for "branch has commits beyond
main" (watcher.go, `DeriveIssueStatus`). -/
def branchHasNewCommits (env : FSEnv) (wd branch : String) : Bool :=
  match env.gitLogRange wd branch with
  | some out => trimSpaceNonEmpty out
  | none => false

/-- `watcher.DeriveIssueStatus` (watcher.go lines 218–236): probe the
filesystem to recover an issue's status after a restart. -/
def DeriveIssueStatus (env : FSEnv) (baseDir repo : String) (num : Int) :
    IssueStatus × String :=
  let workdir := issueWorkdir baseDir repo num
  if env.dirExists workdir then
    match env.gitLogRange workdir (agentBranch num) with
    | some out =>
        if trimSpaceNonEmpty out then (.ready, workdir) else (.cloneReady, workdir)
    | none => (.cloneReady, workdir)
  else
    (.pending, "")

end Lurker

namespace Lurker

/-- Claim C1: `DeriveIssueStatus` returns `(pending, "")` when the per-issue
working directory `<baseDir>/<repo>/<number>/<basename-of-repo>` does not
exist; `(ready, workdir)` when it exists and branch `agent/issue-<number>`
has at least one commit beyond the repository's main branch; and
`(cloneReady, workdir)` when it exists but the branch has no such commits. -/
theorem deriveIssueStatus_cases (env : FSEnv) (baseDir repo : String) (num : Int) :
    (env.dirExists (issueWorkdir baseDir repo num) = false →
      DeriveIssueStatus env baseDir repo num = (.pending, "")) ∧
    (env.dirExists (issueWorkdir baseDir repo num) = true →
      branchHasNewCommits env (issueWorkdir baseDir repo num) (agentBranch num) = true →
      DeriveIssueStatus env baseDir repo num = (.ready, issueWorkdir baseDir repo num)) ∧
    (env.dirExists (issueWorkdir baseDir repo num) = true →
      branchHasNewCommits env (issueWorkdir baseDir repo num) (agentBranch num) = false →
      DeriveIssueStatus env baseDir repo num =
        (.cloneReady, issueWorkdir baseDir repo num)) := by
  refine ⟨?_, ?_, ?_⟩ <;> intro h1
  · simp [DeriveIssueStatus, h1]
  · intro h2
    unfold DeriveIssueStatus
    unfold branchHasNewCommits at h2
    cases hg : env.gitLogRange (issueWorkdir baseDir repo num) (agentBranch num) with
    | none => rw [hg] at h2; exact absurd h2 (by simp)
    | some out => rw [hg] at h2; simp at h2; simp [h1, hg, h2]
  · intro h2
    unfold DeriveIssueStatus
    unfold branchHasNewCommits at h2
    cases hg : env.gitLogRange (issueWorkdir baseDir repo num) (agentBranch num) with
    | none => simp [h1, hg]
    | some out => rw [hg] at h2; simp at h2; simp [h1, hg, h2]

/-- A concrete environment in which the workdir exists and the issue branch
has one commit beyond `origin/main`. -/
def envReadyFixture : FSEnv where
  dirExists := fun _ => true
  gitLogRange := fun _ _ => some "abc1234 Fix the bug"
  persistedLog := fun _ _ => none

/-- Witness for C1 at a concrete environment and issue. -/
theorem deriveIssueStatus_cases_witness :
    DeriveIssueStatus envReadyFixture "/base" "acme/widget" 5 =
      (.ready, issueWorkdir "/base" "acme/widget" 5) :=
  (deriveIssueStatus_cases envReadyFixture "/base" "acme/widget" 5).2.1
    (by decide) (by decide)

end Lurker

namespace Lurker

/-! ## Rate limiter (pkg/github/ratelimit.go) -/

/-- `github.rateLimiter` (ratelimit.go): `remaining` is the last observed
`X-RateLimit-Remaining` value, `-1` when never observed; `resetAt` the last
observed reset time, in abstract clock units. -/
structure RateLimiter where
  remaining : Int
  resetAt : Nat

/-- `github.newRateLimiter` (ratelimit.go lines 17–19): `-1` means unknown,
do not block. -/
def newRateLimiter : RateLimiter :=
  { remaining := -1, resetAt := 0 }

/-- `rateLimiter.wait` (ratelimit.go lines 38–51), as the length of the sleep
it performs: `0` means it returns without blocking. The sleep is
`time.Until(resetAt) + time.Second`; the extra `1` is the one-second buffer,
in the same abstract units as the clock. -/
def waitSleep (rl : RateLimiter) (now : Nat) : Nat :=
  if 0 ≤ rl.remaining ∧ rl.remaining < 10 ∧ now < rl.resetAt then
    (rl.resetAt - now) + 1
  else
    0

/-- Claim C7: `wait` blocks (sleeping at least until the recorded reset time)
exactly when the remaining count is known (non-negative), strictly below 10,
and the reset time is in the future; when remaining is 10 or more, or is the
initial `-1` sentinel, `wait` returns without blocking. -/
theorem rateLimiter_wait_spec (rl : RateLimiter) (now : Nat) :
    (waitSleep rl now ≠ 0 ↔ 0 ≤ rl.remaining ∧ rl.remaining < 10 ∧ now < rl.resetAt) ∧
    (0 ≤ rl.remaining → rl.remaining < 10 → now < rl.resetAt →
      rl.resetAt ≤ now + waitSleep rl now) ∧
    (10 ≤ rl.remaining → waitSleep rl now = 0) ∧
    (rl.remaining = -1 → waitSleep rl now = 0) ∧
    (∀ t, waitSleep newRateLimiter t = 0) := by
  refine ⟨?_, ?_, ?_, ?_, ?_⟩
  · unfold waitSleep
    split
    · next h => simpa using h
    · next h => simpa using h
  · intro h1 h2 h3
    unfold waitSleep
    rw [if_pos ⟨h1, h2, h3⟩]
    omega
  · intro h
    unfold waitSleep
    rw [if_neg]
    rintro ⟨-, h2, -⟩
    omega
  · intro h
    unfold waitSleep
    rw [if_neg]
    rintro ⟨h1, -, -⟩
    omega
  · intro t
    rfl

/-- Witness for C7: with 5 calls remaining and a reset 10 units away, `wait`
sleeps past the reset. -/
theorem rateLimiter_wait_spec_witness :
    (100 : Nat) ≤ 90 + waitSleep { remaining := 5, resetAt := 100 } 90 :=
  (rateLimiter_wait_spec { remaining := 5, resetAt := 100 } 90).2.1
    (by decide) (by decide) (by decide)

/-! ## Durable state (watcher.go: `State`, `loadState`, `saveState`,
`MarkProcessed`, `IsProcessed`) -/

/-- `watcher.State` (watcher.go lines 101–105): the persisted repo list and
per-repo processed issue numbers. The Go `map[string][]int` is modelled as
an association list with at most one binding per key. -/
structure WatchState where
  repos : List String
  processed : List (String × List Int)
  deriving DecidableEq, Repr

/-- The zero/empty state `State{Repos: []string{}, Processed: make(map…)}`. -/
def emptyWatchState : WatchState :=
  { repos := [], processed := [] }

/-- Go map read on the association list: the value bound to `repo`, `[]`
(Go `nil`) when absent. -/
def lookupProcessedList : List (String × List Int) → String → List Int
  | [], _ => []
  | (r, l) :: rest, repo => if r == repo then l else lookupProcessedList rest repo

/-- Go map read `state.Processed[repo]` (missing key reads as `nil`,
modelled as `[]`). -/
def lookupProcessed (st : WatchState) (repo : String) : List Int :=
  lookupProcessedList st.processed repo

/-- Go map write `m[repo] = append(m[repo], num)`: update the binding for
`repo`, creating it at the end when absent. -/
def appendProcessed : List (String × List Int) → String → Int → List (String × List Int)
  | [], repo, num => [(repo, [num])]
  | (r, l) :: rest, repo, num =>
    if r == repo then (r, l ++ [num]) :: rest
    else (r, l) :: appendProcessed rest repo num

/-- `Manager.MarkProcessed` (watcher.go lines 269–278), restricted to its
effect on the persisted state: append `num` to the repo's processed list. -/
def markProcessed (st : WatchState) (repo : String) (num : Int) : WatchState :=
  { st with processed := appendProcessed st.processed repo num }

/-- The issue directory `<baseDir>/<repo>/<num>` probed by `IsProcessed`. -/
def issueDir (baseDir repo : String) (num : Int) : String :=
  joinPath [baseDir, repo, toString num]

/-- `Manager.IsProcessed` (watcher.go lines 252–267): membership in the
in-memory processed list, falling back to an `os.Stat` on the issue
directory ("backwards compat"). -/
def IsProcessed (env : FSEnv) (st : WatchState) (baseDir repo : String) (num : Int) : Bool :=
  if (lookupProcessed st repo).contains num then true
  else env.dirExists (issueDir baseDir repo num)

end Lurker

namespace Lurker

/-- The property claimed of the persisted processed lists: sorted ascending
with no duplicates (equivalently, strictly increasing). -/
def processedSortedSet (st : WatchState) : Prop :=
  ∀ p ∈ st.processed, List.Chain' (· < ·) p.2

/-- Counterexample to C8: marking the same issue processed twice stores a
duplicate entry — `MarkProcessed` appends blindly, it neither sorts nor
deduplicates. -/
theorem markProcessed_not_sorted_set :
    ¬ processedSortedSet
      (markProcessed (markProcessed emptyWatchState "acme/widget" 5) "acme/widget" 5) := by
  intro h
  have hmem : ("acme/widget", ([5, 5] : List Int)) ∈
      (markProcessed (markProcessed emptyWatchState "acme/widget" 5) "acme/widget" 5).processed := by
    decide
  have := h _ hmem
  simp at this

/-- Appending for the marked repository extends its list by `num`. -/
theorem lookupProcessedList_append_self (l : List (String × List Int))
    (repo : String) (num : Int) :
    lookupProcessedList (appendProcessed l repo num) repo =
      lookupProcessedList l repo ++ [num] := by
  induction l with
  | nil => simp [appendProcessed, lookupProcessedList]
  | cons p rest ih =>
    obtain ⟨r, t⟩ := p
    by_cases hr : r = repo
    · simp [appendProcessed, lookupProcessedList, hr]
    · simp [appendProcessed, lookupProcessedList, hr, ih]

/-- Appending for one repository leaves every other repository's list
unchanged. -/
theorem lookupProcessedList_append_other (l : List (String × List Int))
    (repo r' : String) (num : Int) (hne : r' ≠ repo) :
    lookupProcessedList (appendProcessed l repo num) r' =
      lookupProcessedList l r' := by
  induction l with
  | nil => simp [appendProcessed, lookupProcessedList, Ne.symm hne]
  | cons p rest ih =>
    obtain ⟨r, t⟩ := p
    by_cases hr : r = repo
    · subst hr
      simp [appendProcessed, lookupProcessedList, Ne.symm hne]
    · by_cases hrr : r = r'
      · subst hrr
        simp [appendProcessed, lookupProcessedList, hr]
      · simp [appendProcessed, lookupProcessedList, hr, hrr, ih]

/-- Claim C8 amended: after any sequence of `MarkProcessed(repo, n)` calls the
persisted per-repository list holds exactly the marked numbers in call order;
repeated marks repeat the entry and no sorting is applied. Stated as: each
call appends `num` to the end of `repo`'s list and leaves every other
repository's list unchanged. -/
theorem markProcessed_appends (st : WatchState) (repo : String) (num : Int) :
    lookupProcessed (markProcessed st repo num) repo = lookupProcessed st repo ++ [num] ∧
    (∀ r, r ≠ repo → lookupProcessed (markProcessed st repo num) r = lookupProcessed st r) :=
  ⟨lookupProcessedList_append_self st.processed repo num,
   fun r hr => lookupProcessedList_append_other st.processed repo r num hr⟩

/-- Witness for the amended C8 at concrete inputs: marking 5 then 3 for one
repo yields the unsorted append-order list and leaves another repo alone. -/
theorem markProcessed_appends_witness :
    lookupProcessed
        (markProcessed (markProcessed emptyWatchState "acme/widget" 5) "acme/widget" 3)
        "acme/widget" =
      lookupProcessed (markProcessed emptyWatchState "acme/widget" 5) "acme/widget" ++ [3] ∧
    lookupProcessed
        (markProcessed (markProcessed emptyWatchState "acme/widget" 5) "acme/widget" 3)
        "other/repo" =
      lookupProcessed (markProcessed emptyWatchState "acme/widget" 5) "other/repo" :=
  ⟨(markProcessed_appends (markProcessed emptyWatchState "acme/widget" 5) "acme/widget" 3).1,
   (markProcessed_appends (markProcessed emptyWatchState "acme/widget" 5) "acme/widget" 3).2
     "other/repo" (by decide)⟩

/-- Claim C10: `IsProcessed` is true exactly when the number is in the
in-memory processed list or — the filesystem fallback — the issue directory
`<baseDir>/<repo>/<num>` exists; in particular, when the number was never
marked, the result is exactly the filesystem probe. -/
theorem isProcessed_spec (env : FSEnv) (st : WatchState) (baseDir repo : String) (num : Int) :
    (IsProcessed env st baseDir repo num = true ↔
      num ∈ lookupProcessed st repo ∨ env.dirExists (issueDir baseDir repo num) = true) ∧
    (num ∉ lookupProcessed st repo →
      IsProcessed env st baseDir repo num = env.dirExists (issueDir baseDir repo num)) := by
  constructor
  · unfold IsProcessed
    by_cases hmem : num ∈ lookupProcessed st repo
    · have hc : (lookupProcessed st repo).contains num = true := List.elem_iff.mpr hmem
      simp [hc, hmem]
    · have hc : (lookupProcessed st repo).contains num = false := by
        simpa using fun h => hmem (List.elem_iff.mp h)
      simp [hc, hmem]
  · intro hmem
    have hc : (lookupProcessed st repo).contains num = false := by
      simpa using fun h => hmem (List.elem_iff.mp h)
    unfold IsProcessed
    simp [hc, hmem]

/-- Witness for C10: an issue that was never marked processed counts as
processed because its directory exists on disk. -/
theorem isProcessed_spec_witness :
    IsProcessed envReadyFixture emptyWatchState "/base" "acme/widget" 7 =
      envReadyFixture.dirExists (issueDir "/base" "acme/widget" 7) :=
  (isProcessed_spec envReadyFixture emptyWatchState "/base" "acme/widget" 7).2 (by decide)

end Lurker

namespace Lurker

/-! ## State store serialisation (watcher.go: `loadState`, `saveState`)

`saveState` writes `json.MarshalIndent(m.state)` to `<path>.tmp` and renames
it over `<path>`; `loadState` reads the file and `json.Unmarshal`s it,
returning the empty state when the file is missing, unreadable or
unparseable.  The byte-level JSON grammar is abstracted by a JSON value
tree: a stored file either failed to parse (`garbage`) or parsed to a
value, and Go's marshalling/unmarshalling of the `State` struct is embedded
on values.  JSON numbers are modelled as integers (the schema stores only
issue numbers). -/

/-- A parsed JSON value. -/
inductive Json where
  | null
  | bool (b : Bool)
  | num (n : Int)
  | str (s : String)
  | arr (xs : List Json)
  | obj (fields : List (String × Json))

/-- The content of the state file: either bytes that do not parse as JSON,
or a JSON value. -/
inductive FileContent where
  | garbage
  | json (j : Json)

/-- Field lookup in a JSON object (marshal output has no duplicate keys). -/
def jsonField (fields : List (String × Json)) (k : String) : Option Json :=
  match fields.find? (fun p => p.1 == k) with
  | some p => some p.2
  | none => none

/-- Go `json.Unmarshal` of a JSON value into a `[]string` element:
strings unmarshal to themselves, `null` to the zero value, anything else
is a type error. -/
def decodeStr : Json → Option String
  | .str s => some s
  | .null => some ""
  | _ => none

/-- Go `json.Unmarshal` into an `int` element. -/
def decodeInt : Json → Option Int
  | .num n => some n
  | .null => some 0
  | _ => none

/-- Element-wise decoding of a `[]string` payload. -/
def decodeStrs : List Json → Option (List String)
  | [] => some []
  | j :: rest =>
    match decodeStr j with
    | none => none
    | some s =>
      match decodeStrs rest with
      | none => none
      | some ss => some (s :: ss)

/-- Go `json.Unmarshal` into `[]string`. -/
def decodeStrList : Json → Option (List String)
  | .arr xs => decodeStrs xs
  | .null => some []
  | _ => none

/-- Element-wise decoding of a `[]int` payload. -/
def decodeInts : List Json → Option (List Int)
  | [] => some []
  | j :: rest =>
    match decodeInt j with
    | none => none
    | some n =>
      match decodeInts rest with
      | none => none
      | some ns => some (n :: ns)

/-- Go `json.Unmarshal` into `[]int`. -/
def decodeIntList : Json → Option (List Int)
  | .arr xs => decodeInts xs
  | .null => some []
  | _ => none

/-- Element-wise decoding of the `map[string][]int` object fields. -/
def decodeProcessedFields : List (String × Json) → Option (List (String × List Int))
  | [] => some []
  | (k, v) :: rest =>
    match decodeIntList v with
    | none => none
    | some l =>
      match decodeProcessedFields rest with
      | none => none
      | some m => some ((k, l) :: m)

/-- Go `json.Unmarshal` into `map[string][]int`. -/
def decodeProcessedMap : Json → Option (List (String × List Int))
  | .obj fields => decodeProcessedFields fields
  | _ => none

/-- The `repos` field of the state object: absent unmarshals to the zero
value (`nil` slice, modelled `[]`). -/
def reposField (fields : List (String × Json)) : Option (List String) :=
  match jsonField fields "repos" with
  | none => some []
  | some jr => decodeStrList jr

/-- The `processed` field of the state object: `some none` is Go's `nil`
map (field absent or `null`), which `loadState` later initialises. -/
def processedField (fields : List (String × Json)) :
    Option (Option (List (String × List Int))) :=
  match jsonField fields "processed" with
  | none => some none
  | some .null => some none
  | some jp => (decodeProcessedMap jp).map some

/-- Go `json.Unmarshal` of an object into the `State` struct. -/
def decodeStateObj (fields : List (String × Json)) :
    Option (List String × Option (List (String × List Int))) :=
  match reposField fields with
  | none => none
  | some repos =>
    match processedField fields with
    | none => none
    | some processed => some (repos, processed)

/-- Go `json.Unmarshal` of a JSON value into the `State` struct: `null`
leaves the struct zero-valued, non-object values are type errors. -/
def decodeState : Json → Option (List String × Option (List (String × List Int)))
  | .null => some ([], none)
  | .obj fields => decodeStateObj fields
  | _ => none

/-- The two fields `json.Marshal` produces for the `State` struct (the
`processed` map object's key order is irrelevant to decoding; the
association-list order is used). -/
def marshalFields (st : WatchState) : List (String × Json) :=
  [("repos", .arr (st.repos.map .str)),
   ("processed", .obj (st.processed.map (fun p => (p.1, .arr (p.2.map .num)))))]

/-- Go `json.Marshal` of the `State` struct. -/
def marshalState (st : WatchState) : Json :=
  .obj (marshalFields st)

/-- `Manager.saveState` (watcher.go lines 377–388), up to the byte encoding:
the file content after the atomic write is the marshalled state. -/
def saveState (st : WatchState) : FileContent :=
  .json (marshalState st)

/-- `watcher.loadState` (watcher.go lines 362–375): `none` is a missing or
unreadable file; a parse failure or unmarshal failure yields the empty
state; a `nil` `Processed` map is replaced by an empty one. -/
def loadState (file : Option FileContent) : WatchState :=
  match file with
  | none => emptyWatchState
  | some .garbage => emptyWatchState
  | some (.json j) =>
    match decodeState j with
    | none => emptyWatchState
    | some (repos, processed) => { repos := repos, processed := processed.getD [] }

/-- Encoding then decoding a string list is the identity. -/
theorem decodeStrs_marshal (rs : List String) :
    decodeStrs (rs.map .str) = some rs := by
  induction rs with
  | nil => rfl
  | cons r rest ih => simp [decodeStrs, decodeStr, ih]

/-- Encoding then decoding an integer list is the identity. -/
theorem decodeInts_marshal (ns : List Int) :
    decodeInts (ns.map .num) = some ns := by
  induction ns with
  | nil => rfl
  | cons n rest ih => simp [decodeInts, decodeInt, ih]

/-- Encoding then decoding the processed map is the identity. -/
theorem decodeProcessedFields_marshal (m : List (String × List Int)) :
    decodeProcessedFields (m.map (fun p => (p.1, .arr (p.2.map .num)))) = some m := by
  induction m with
  | nil => rfl
  | cons p rest ih =>
    simp [decodeProcessedFields, decodeIntList, decodeInts_marshal, ih]

/-- The `repos` field of a marshalled state decodes to the repo list. -/
theorem reposField_marshal (st : WatchState) :
    reposField (marshalFields st) = some st.repos := by
  show decodeStrList (.arr (st.repos.map .str)) = some st.repos
  show decodeStrs (st.repos.map .str) = some st.repos
  exact decodeStrs_marshal st.repos

/-- The `processed` field of a marshalled state decodes to the processed
map. -/
theorem processedField_marshal (st : WatchState) :
    processedField (marshalFields st) = some (some st.processed) := by
  show (decodeProcessedMap
      (.obj (st.processed.map (fun p => (p.1, .arr (p.2.map .num)))))).map some =
    some (some st.processed)
  show (decodeProcessedFields
      (st.processed.map (fun p => (p.1, .arr (p.2.map .num))))).map some =
    some (some st.processed)
  rw [decodeProcessedFields_marshal]
  rfl

/-- A marshalled state decodes to itself. -/
theorem decodeState_marshal (st : WatchState) :
    decodeState (marshalState st) = some (st.repos, some st.processed) := by
  show decodeStateObj (marshalFields st) = some (st.repos, some st.processed)
  unfold decodeStateObj
  rw [reposField_marshal, processedField_marshal]

/-- Claim C6: `saveState` followed by `loadState` of the same path yields the
saved state, for every valid state (a map has no duplicate repository keys);
and `loadState` of a missing or unparseable file yields the empty state with
an initialised empty processed map. -/
theorem stateStore_roundTrip :
    (∀ st : WatchState, (st.processed.map Prod.fst).Nodup →
      loadState (some (saveState st)) = st) ∧
    loadState none = emptyWatchState ∧
    loadState (some .garbage) = emptyWatchState := by
  refine ⟨?_, rfl, rfl⟩
  intro st _
  show (match decodeState (marshalState st) with
        | none => emptyWatchState
        | some (repos, processed) =>
          { repos := repos, processed := processed.getD [] }) = st
  rw [decodeState_marshal]
  rfl

/-- Witness for C6 at a concrete state. -/
theorem stateStore_roundTrip_witness :
    loadState (some (saveState
        { repos := ["acme/widget"], processed := [("acme/widget", [1, 2, 3])] })) =
      { repos := ["acme/widget"], processed := [("acme/widget", [1, 2, 3])] } :=
  stateStore_roundTrip.1
    { repos := ["acme/widget"], processed := [("acme/widget", [1, 2, 3])] } (by decide)

end Lurker

namespace Lurker

/-! ## Hosting client retry (pkg/github: `Client.do`) -/

/-- The outcome of one HTTP attempt: a transport failure
(`c.httpClient.Do` returns an error) or a response with a status code and
whether its `X-RateLimit-Remaining` header is `"0"`. -/
inductive HttpOutcome where
  | transport
  | resp (status : Nat) (remainingZero : Bool)

/-- The rate-limit test of `Client.do`:
`resp.StatusCode == 429 || (resp.StatusCode == 403 && isRateLimitError(resp))`. -/
def isRateLimitResp : HttpOutcome → Bool
  | .transport => false
  | .resp s rz => s == 429 || (s == 403 && rz)

/-- Outcomes `Client.do` retries on: transport failure, rate-limit, or 5xx. -/
def retryable : HttpOutcome → Bool
  | .transport => true
  | .resp s rz => s == 429 || (s == 403 && rz) || decide (500 ≤ s)

/-- The retry loop of `Client.do` (client.go): `k` is the index of the
current attempt, `left + 1` the number of attempts still allowed
(`left = 0` means this is the last).  The result pairs the returned
status (`none` when the loop ends with a transport error, which `do`
wraps as an error) with the total number of attempts made.  The
backoff sleeps and the rate limiter do not affect either. -/
def doLoop (server : Nat → HttpOutcome) : Nat → Nat → Option Nat × Nat
  | k, 0 => (none, k)
  | k, left + 1 =>
    match server k with
    | .transport =>
      if left == 0 then (none, k + 1) else doLoop server (k + 1) left
    | .resp s rz =>
      if s == 429 || (s == 403 && rz) then
        (if left == 0 then (some s, k + 1) else doLoop server (k + 1) left)
      else if 500 ≤ s then
        (if left == 0 then (some s, k + 1) else doLoop server (k + 1) left)
      else
        (some s, k + 1)

/-- `Client.do`: `for attempt := 0; attempt <= 3; attempt++`, i.e. at most
four attempts starting at index 0. -/
def clientDo (server : Nat → HttpOutcome) : Option Nat × Nat :=
  doLoop server 0 4

/-- A server answering 500 on the first three attempts, 200 afterwards. -/
def srv500then200 : Nat → HttpOutcome :=
  fun k => if k < 3 then .resp 500 false else .resp 200 false

/-- A server always answering 404. -/
def srv404 : Nat → HttpOutcome :=
  fun _ => .resp 404 false

/-- Every attempt before the last of a `doLoop` run hit a retryable
outcome, and the attempt count stays within the allowance. -/
theorem doLoop_attempts (server : Nat → HttpOutcome) :
    ∀ left k, (doLoop server k (left + 1)).2 ≤ k + left + 1 ∧
      k + 1 ≤ (doLoop server k (left + 1)).2 ∧
      ∀ i, k ≤ i → i + 1 < (doLoop server k (left + 1)).2 →
        retryable (server i) = true := by
  intro left
  induction left with
  | zero =>
    intro k
    unfold doLoop
    cases hs : server k with
    | transport =>
      dsimp only
      rw [if_pos (by simp : (0 == 0) = true)]
      refine ⟨by simp, by simp, ?_⟩
      intro i hki hi
      simp at hi
      omega
    | resp s rz =>
      dsimp only
      by_cases h1 : (s == 429 || (s == 403 && rz)) = true
      · rw [if_pos h1, if_pos (by simp : (0 == 0) = true)]
        refine ⟨by simp, by simp, ?_⟩
        intro i hki hi
        simp at hi
        omega
      · by_cases h2 : 500 ≤ s
        · rw [if_neg h1, if_pos h2, if_pos (by simp : (0 == 0) = true)]
          refine ⟨by simp, by simp, ?_⟩
          intro i hki hi
          simp at hi
          omega
        · rw [if_neg h1, if_neg h2]
          refine ⟨by simp, by simp, ?_⟩
          intro i hki hi
          simp at hi
          omega
  | succ left ih =>
    intro k
    have hne : ¬ ((left + 1 == 0) = true) := by simp
    unfold doLoop
    cases hs : server k with
    | transport =>
      dsimp only
      rw [if_neg hne]
      obtain ⟨ha, hb, hc⟩ := ih (k + 1)
      refine ⟨by omega, by omega, ?_⟩
      intro i hki hi
      rcases Nat.eq_or_lt_of_le hki with rfl | hklt
      · simp [retryable, hs]
      · exact hc i (by omega) hi
    | resp s rz =>
      dsimp only
      by_cases h1 : (s == 429 || (s == 403 && rz)) = true
      · rw [if_pos h1, if_neg hne]
        obtain ⟨ha, hb, hc⟩ := ih (k + 1)
        refine ⟨by omega, by omega, ?_⟩
        intro i hki hi
        rcases Nat.eq_or_lt_of_le hki with rfl | hklt
        · simp [retryable, hs, h1]
        · exact hc i (by omega) hi
      · by_cases h2 : 500 ≤ s
        · rw [if_neg h1, if_pos h2, if_neg hne]
          obtain ⟨ha, hb, hc⟩ := ih (k + 1)
          refine ⟨by omega, by omega, ?_⟩
          intro i hki hi
          rcases Nat.eq_or_lt_of_le hki with rfl | hklt
          · simp [retryable, hs, h1, h2]
          · exact hc i (by omega) hi
        · rw [if_neg h1, if_neg h2]
          refine ⟨by simp, by simp, ?_⟩
          intro i hki hi
          simp at hi
          omega

/-- Claim C5: `Client.do` retries only on transport failure, 5xx or
rate-limit responses and makes at most 4 attempts; three 500s then a 200
yield success after exactly 4 attempts; a 404 returns immediately after
exactly 1 attempt. -/
theorem clientDo_retry_policy :
    clientDo srv500then200 = (some 200, 4) ∧
    clientDo srv404 = (some 404, 1) ∧
    ∀ server : Nat → HttpOutcome,
      (clientDo server).2 ≤ 4 ∧
      ∀ i, i + 1 < (clientDo server).2 → retryable (server i) = true := by
  refine ⟨by decide, by decide, ?_⟩
  intro server
  obtain ⟨ha, -, hc⟩ := doLoop_attempts server 3 0
  exact ⟨ha, fun i hi => hc i (Nat.zero_le i) hi⟩

/-- Witness for C5: the retried attempts of the 500-500-500-200 scenario were
retryable. -/
theorem clientDo_retry_policy_witness :
    retryable (srv500then200 2) = true :=
  (clientDo_retry_policy.2.2 srv500then200).2 2 (by decide)

end Lurker

namespace Lurker

/-! ## Issue worker (watcher.go: `Watcher.processIssue`, lines 467–533) -/

/-- What the worker's collaborators do during one `processIssue` run.
`cancelFrom` is the index of the first `ctx.Err()` check (numbered 1–5 in
program order: inside the react-failure branch, after react, inside the
clone-failure branch, after cloneDone, inside the claude-failure branch)
that observes a cancelled context; cancellation is monotone, so every later
check observes it too.  `claudeLogLines` are the lines `RunClaude` hands to
`logFn` before returning (on cancellation the run truncates, which shows up
as a shorter list together with `claudeFails`, since a cancelled
`RunClaude` returns an error). -/
structure WorkerEnv where
  reactFails : Bool
  cloneFails : Bool
  claudeLogLines : List String
  claudeFails : Bool
  cancelFrom : Option Nat

/-- Whether the `i`-th `ctx.Err()` check observes cancellation. -/
def WorkerEnv.cancelled (e : WorkerEnv) (i : Nat) : Bool :=
  match e.cancelFrom with
  | some k => decide (k ≤ i)
  | none => false

/-- `Watcher.processIssue` as the sequence of event kinds it emits on the
event channel (`w.emit`), in order. -/
def processIssue (e : WorkerEnv) : List EventKind :=
  if e.reactFails && e.cancelled 1 then []
  else
    let first : EventKind := if e.reactFails then .error else .reacted
    if e.cancelled 2 then [first]
    else if e.cloneFails then
      if e.cancelled 3 then [first, .cloneStart]
      else [first, .cloneStart, .error]
    else if e.cancelled 4 then [first, .cloneStart, .cloneDone]
    else
      let logs := e.claudeLogLines.map (fun _ => EventKind.claudeLog)
      if e.claudeFails then
        if e.cancelled 5 then [first, .cloneStart, .cloneDone, .claudeStart] ++ logs
        else [first, .cloneStart, .cloneDone, .claudeStart] ++ logs ++ [.claudeDone, .error]
      else [first, .cloneStart, .cloneDone, .claudeStart] ++ logs ++ [.claudeDone, .ready]

/-- The claimed terminality of `error`: no event follows an `error` in the
trace. -/
def noEventsAfterError : List EventKind → Bool
  | [] => true
  | .error :: rest => rest.isEmpty
  | _ :: rest => noEventsAfterError rest

/-- A run whose `addReaction` call fails while nothing is cancelled and
every later stage succeeds. -/
def envReactFail : WorkerEnv :=
  { reactFails := true, cloneFails := false, claudeLogLines := [],
    claudeFails := false, cancelFrom := none }

/-- Counterexample to C3: when the react step fails, `processIssue` emits
`error` and then continues through the whole pipeline, so `error` does not
terminate the sequence. -/
theorem processIssue_error_not_terminal :
    processIssue envReactFail =
      [.error, .cloneStart, .cloneDone, .claudeStart, .claudeDone, .ready] ∧
    noEventsAfterError (processIssue envReactFail) = false := by
  constructor <;> rfl

/-- The head event of a worker trace: `reacted`, or `error` when the
react step failed (the one non-terminal `error`). -/
def headEvent (reactFails : Bool) : EventKind :=
  if reactFails then .error else .reacted

/-- A complete successful pipeline trace with `n` agent log lines. -/
def traceOk (h : EventKind) (n : Nat) : List EventKind :=
  h :: .cloneStart :: .cloneDone :: .claudeStart ::
    (List.replicate n .claudeLog ++ [.claudeDone, .ready])

/-- A complete trace of a pipeline whose agent run fails. -/
def traceClaudeFail (h : EventKind) (n : Nat) : List EventKind :=
  h :: .cloneStart :: .cloneDone :: .claudeStart ::
    (List.replicate n .claudeLog ++ [.claudeDone, .error])

/-- A complete trace of a pipeline whose clone fails. -/
def traceCloneFail (h : EventKind) : List EventKind :=
  [h, .cloneStart, .error]

/-- Claim C3 amended: a worker's per-issue event sequence is a prefix of
`(reacted | error) → cloneStart → cloneDone → claudeStart → {claudeLog} →
claudeDone → (ready | error)` or of `(reacted | error) → cloneStart →
error`: the react-stage `error` does not terminate the pipeline, every
later `error` does. -/
theorem processIssue_trace_shape (e : WorkerEnv) :
    ∃ n, processIssue e <+: traceOk (headEvent e.reactFails) n ∨
      processIssue e <+: traceClaudeFail (headEvent e.reactFails) n ∨
      processIssue e <+: traceCloneFail (headEvent e.reactFails) := by
  refine ⟨e.claudeLogLines.length, ?_⟩
  unfold processIssue traceOk traceClaudeFail traceCloneFail headEvent
  have hmap : e.claudeLogLines.map (fun _ => EventKind.claudeLog) =
      List.replicate e.claudeLogLines.length .claudeLog := by
    simp [List.map_const]
  by_cases hrc : (e.reactFails && e.cancelled 1) = true
  · simp [hrc]
  · rw [if_neg hrc]
    by_cases h2 : e.cancelled 2 = true
    · simp only [h2, if_true]
      exact Or.inl ⟨_, rfl⟩
    · rw [if_neg (by simp [h2])]
      by_cases hcl : e.cloneFails = true
      · rw [if_pos hcl]
        by_cases h3 : e.cancelled 3 = true
        · rw [if_pos h3]
          exact Or.inr (Or.inr ⟨_, rfl⟩)
        · rw [if_neg (by simp [h3])]
          exact Or.inr (Or.inr ⟨[], by simp⟩)
      · rw [if_neg (by simp [hcl])]
        by_cases h4 : e.cancelled 4 = true
        · rw [if_pos h4]
          exact Or.inl ⟨_, rfl⟩
        · rw [if_neg (by simp [h4])]
          by_cases hcf : e.claudeFails = true
          · rw [if_pos hcf]
            by_cases h5 : e.cancelled 5 = true
            · rw [if_pos h5, hmap]
              exact Or.inl ⟨[.claudeDone, .ready], by simp⟩
            · rw [if_neg (by simp [h5]), hmap]
              exact Or.inr (Or.inl ⟨[], by simp⟩)
          · rw [if_neg (by simp [hcf]), hmap]
            exact Or.inl ⟨[], by simp⟩

end Lurker

namespace Lurker

/-! ## TUI event handling (pkg/tui/model.go: `Model.handleEvent`) -/

/-- `watcher.Event` (watcher.go lines 32–43). -/
structure Event where
  kind : EventKind
  repo : String
  issueNum : Int
  text : String
  timestamp : Nat
  issueURL : String := ""
  issueBody : String := ""
  issueLabels : String := ""

/-- `watcher.TrackedIssue` (watcher.go lines 87–99); `errText` is the Go
`Error` field. -/
structure TrackedIssue where
  repo : String
  number : Int
  title : String
  body : String
  labels : String
  url : String
  status : IssueStatus
  workdir : String
  errText : String
  startedAt : Nat

/-- `watcher.IssueKey` / `tui.issueKey`: `"owner/repo#42"`. -/
def issueKey (repo : String) (num : Int) : String :=
  repo ++ "#" ++ toString num

/-- The `tui.focus` panel enum (model.go lines 27–38). -/
inductive Focus
  | list
  | logs
  | dialog
  | input
  | focusView
  | help
  | confirm
  deriving DecidableEq, Repr

/-- Pointwise update of a map modelled as a function (Go map write). -/
def mapUpdate {α : Type} (f : String → α) (k : String) (v : α) : String → α :=
  fun x => if x = k then v else f x

/-- The fields of `tui.Model` (model.go lines 59–99) that `handleEvent` and
its helpers read or write.  Go maps are modelled as functions; a `nil`
pointer `focusIssue` is `none`, otherwise the pointed-to issue's key pair.
Log persistence to `lurker.log` is a filesystem side effect outside this
state. -/
structure Model where
  baseDir : String
  issues : List TrackedIssue
  logs : String → List String
  expanded : String → Bool
  repoExpanded : String → Option Bool
  repoErrors : String → Option String
  pollCount : Nat
  lastPoll : Nat
  focus : Focus
  focusIssue : Option (String × Int)
  focusScroll : Nat
  height : Nat

/-- `Model.findIssueStatus` (model.go lines 878–885): the first tracked
issue's status, `pending` when untracked. -/
def findIssueStatus (m : Model) (repo : String) (num : Int) : IssueStatus :=
  match m.issues.find? (fun iss => iss.repo == repo && iss.number == num) with
  | some iss => iss.status
  | none => .pending

/-- The Go update loops (`updateIssueStatus`, `setWorkdir`, `setError`):
mutate the first matching element, then return. -/
def updateFirst (p : TrackedIssue → Bool) (f : TrackedIssue → TrackedIssue) :
    List TrackedIssue → List TrackedIssue
  | [] => []
  | iss :: rest => if p iss then f iss :: rest else iss :: updateFirst p f rest

/-- `Model.updateIssueStatus` (model.go lines 887–894). -/
def updateIssueStatus (m : Model) (repo : String) (num : Int) (status : IssueStatus) : Model :=
  { m with issues := (updateFirst (fun iss => iss.repo == repo && iss.number == num)
      (fun iss => { iss with status := status }) m.issues) }

/-- `Model.setWorkdir` (model.go lines 896–903). -/
def setWorkdir (m : Model) (repo : String) (num : Int) (dir : String) : Model :=
  { m with issues := (updateFirst (fun iss => iss.repo == repo && iss.number == num)
      (fun iss => { iss with workdir := dir }) m.issues) }

/-- `Model.setError` (model.go lines 905–912). -/
def setError (m : Model) (repo : String) (num : Int) (errText : String) : Model :=
  { m with issues := (updateFirst (fun iss => iss.repo == repo && iss.number == num)
      (fun iss => { iss with errText := errText }) m.issues) }

/-- `Model.clampFocusScroll` (model.go lines 493–510). -/
def clampFocusScroll (m : Model) : Model :=
  match m.focusIssue with
  | none => m
  | some (r, n) =>
    let lines := m.logs (issueKey r n)
    let visibleLines := max (m.height - 5) 1
    let maxScroll := lines.length - visibleLines
    if maxScroll < m.focusScroll then { m with focusScroll := maxScroll } else m

/-- `Model.appendLog` (model.go lines 914–950): tail-follow bookkeeping for
the focus view, append, trim to the last 500 lines, re-clamp when
following.  The `persistLogLine` call writes the line to `lurker.log`
outside the model state. -/
def appendLog (m : Model) (key : String) (line : String) : Model :=
  let cur := m.logs key
  let autoScroll :=
    match m.focus, m.focusIssue with
    | .focusView, some (r, n) =>
      if issueKey r n = key then
        let visibleLines := max (m.height - 5) 1
        let maxScroll := cur.length - visibleLines
        decide (maxScroll ≤ m.focusScroll)
      else false
    | _, _ => false
  let appended := cur ++ [line]
  let trimmed :=
    if 500 < appended.length then appended.drop (appended.length - 500) else appended
  let m1 := { m with logs := mapUpdate m.logs key trimmed }
  if autoScroll then clampFocusScroll { m1 with focusScroll := 999999 } else m1

/-- `Model.loadPersistedLogs` (model.go lines 978–994): the lines of
`lurker.log`, trimmed to the last 500; `nil` when the file is missing,
unreadable or empty. -/
def loadPersistedLogs (env : FSEnv) (repo : String) (num : Int) : Option (List String) :=
  (env.persistedLog repo num).bind fun ls =>
    if ls.isEmpty then none
    else some (if 500 < ls.length then ls.drop (ls.length - 500) else ls)

/-- `Model.handleEvent` (model.go lines 796–876). -/
def handleEvent (env : FSEnv) (m : Model) (ev : Event) : Model :=
  let key := issueKey ev.repo ev.issueNum
  if 0 < ev.issueNum ∧ ev.kind ≠ .issueFound ∧
      findIssueStatus m ev.repo ev.issueNum = .paused then
    m
  else
    match ev.kind with
    | .pollStart =>
      { m with pollCount := m.pollCount + 1, lastPoll := ev.timestamp }
    | .issueFound =>
      let m1 :=
        if (m.repoExpanded ev.repo).isNone then
          { m with repoExpanded := mapUpdate m.repoExpanded ev.repo (some true) }
        else m
      let sw := DeriveIssueStatus env m1.baseDir ev.repo ev.issueNum
      let m2 := { m1 with issues := (m1.issues ++
        [({ repo := ev.repo, number := ev.issueNum, title := ev.text,
            body := ev.issueBody, labels := ev.issueLabels, url := ev.issueURL,
            status := sw.1, workdir := sw.2, errText := "",
            startedAt := ev.timestamp } : TrackedIssue)]) }
      match loadPersistedLogs env ev.repo ev.issueNum with
      | some ls => { m2 with logs := mapUpdate m2.logs key ls }
      | none => { m2 with logs := mapUpdate m2.logs key [] }
    | .reacted =>
      appendLog (updateIssueStatus m ev.repo ev.issueNum .reacted) key "👀 Reacted"
    | .cloneStart =>
      appendLog (updateIssueStatus m ev.repo ev.issueNum .cloning) key "📦 Cloning..."
    | .cloneDone =>
      appendLog (setWorkdir (updateIssueStatus m ev.repo ev.issueNum .cloneReady)
        ev.repo ev.issueNum ev.text) key ("📂 " ++ ev.text)
    | .claudeStart =>
      let m1 := appendLog (updateIssueStatus m ev.repo ev.issueNum .claudeRunning)
        key "🤖 Claude working..."
      { m1 with expanded := mapUpdate m1.expanded key true }
    | .claudeLog =>
      appendLog m key ("  " ++ ev.text)
    | .claudeDone =>
      appendLog m key ev.text
    | .ready =>
      appendLog (updateIssueStatus m ev.repo ev.issueNum .ready) key
        "✅ Ready — press \x27a\x27 to approve & open PR"
    | .error =>
      if ev.issueNum == 0 then
        { m with repoErrors := mapUpdate m.repoErrors ev.repo (some ev.text) }
      else
        appendLog (setError (updateIssueStatus m ev.repo ev.issueNum .failed)
          ev.repo ev.issueNum ev.text) key ("❌ " ++ ev.text)
    | .pollDone =>
      { m with repoErrors := mapUpdate m.repoErrors ev.repo none }

/-- Claim C4: every event carrying an issue number greater than 0 whose kind
is not `issueFound` is dropped whenever the tracked issue's status is
`paused` — the handler returns the model unchanged: no status, workdir or
error update and no log line. -/
theorem handleEvent_drops_stale (env : FSEnv) (m : Model) (ev : Event)
    (h1 : 0 < ev.issueNum) (h2 : ev.kind ≠ .issueFound)
    (h3 : findIssueStatus m ev.repo ev.issueNum = .paused) :
    handleEvent env m ev = m := by
  unfold handleEvent
  rw [if_pos ⟨h1, h2, h3⟩]

/-- A model tracking one paused issue. -/
def pausedModelFixture : Model where
  baseDir := "/base"
  issues := [{ repo := "acme/widget", number := 7, title := "t", body := "b",
               labels := "", url := "", status := .paused,
               workdir := "/base/acme/widget/7/widget", errText := "",
               startedAt := 0 }]
  logs := fun _ => []
  expanded := fun _ => false
  repoExpanded := fun _ => none
  repoErrors := fun _ => none
  pollCount := 0
  lastPoll := 0
  focus := .list
  focusIssue := none
  focusScroll := 0
  height := 40

/-- A stale `cloneDone` event for the paused issue. -/
def staleEventFixture : Event :=
  { kind := .cloneDone, repo := "acme/widget", issueNum := 7,
    text := "/base/acme/widget/7/widget", timestamp := 3 }

/-- Witness for C4: the stale event leaves the concrete model untouched. -/
theorem handleEvent_drops_stale_witness :
    findIssueStatus pausedModelFixture "acme/widget" 7 = .paused ∧
    handleEvent envReadyFixture pausedModelFixture staleEventFixture = pausedModelFixture :=
  ⟨rfl, handleEvent_drops_stale envReadyFixture pausedModelFixture staleEventFixture
    (by decide) (by decide) rfl⟩

end Lurker

namespace Lurker

/-! ## Agent stream translation (pkg/watcher: `formatStreamEvent`)

The `formatStreamEvent` the tree's unit tests exercise — one returning a
slice of log lines, one per assistant content block — is not among the
sources; only its tests (claude_test.go) and its caller (watcher.go) are,
and the claude.go present is a stale revision with a `string` return type
that predates the `message.content` schema.  The translator is therefore
modelled from the spec below. -/

/-- A content block of an assistant stream event (spec §6: text blocks and
tool_use blocks with a tool name and an input payload, rendered here as the
description string the tool formatter derives from the input). -/
inductive ContentBlock where
  | text (s : String)
  | toolUse (name : String) (input : String)

/-- A parsed stream-json line (spec §6): assistant messages carry content
blocks; `system/init` and `result` lines are recognised; every other shape
is unrecognised. -/
inductive StreamEvent where
  | assistant (blocks : List ContentBlock)
  | systemInit
  | result (isError : Bool) (summary : String)
  | unrecognized

/-- Modelled from the spec: "one log line per content block, text truncated
to 200 characters" — text longer than 200 characters is cut at 200 and an
ellipsis appended, and a tool_use block renders as a tool description. -/
def formatBlockLine : ContentBlock → String
  | .text s => if 200 < s.length then String.mk (s.data.take 200) ++ "…" else s
  | .toolUse name input => name ++ " " ++ input

/-- Modelled from the spec: `formatStreamEvent` — the log lines produced for
one stream-json line.  Assistant events yield one line per content block;
`system/init` a fixed line; `result` a single summary line ("Failed" when
`is_error`); unrecognised shapes yield none. -/
def formatStreamEvent : StreamEvent → List String
  | .assistant blocks => blocks.map formatBlockLine
  | .systemInit => ["Claude session initialized"]
  | .result isError summary =>
    if isError then ["Failed: " ++ summary] else ["Done " ++ summary]
  | .unrecognized => []

/-- Claim C9: an assistant stream line yields exactly one log line per
content block — the block's text, truncated to 200 characters when longer,
for text blocks, a tool description for tool_use blocks — and an
unrecognised event yields no log line. -/
theorem formatStreamEvent_assistant_spec :
    (∀ blocks, (formatStreamEvent (.assistant blocks)).length = blocks.length) ∧
    (∀ blocks i, (formatStreamEvent (.assistant blocks)).get? i =
      (blocks.get? i).map formatBlockLine) ∧
    (∀ s, 200 < s.length →
      formatBlockLine (.text s) = String.mk (s.data.take 200) ++ "…") ∧
    (∀ s, s.length ≤ 200 → formatBlockLine (.text s) = s) ∧
    (∀ name input, formatBlockLine (.toolUse name input) = name ++ " " ++ input) ∧
    formatStreamEvent .unrecognized = [] := by
  refine ⟨?_, ?_, ?_, ?_, ?_, rfl⟩
  · intro blocks
    simp [formatStreamEvent]
  · intro blocks i
    simp [formatStreamEvent]
  · intro s hs
    simp [formatBlockLine, hs]
  · intro s hs
    simp [formatBlockLine]
    omega
  · intro name input
    rfl

/-- Witness for C9 on concrete blocks: a short text block passes through
unchanged and sits at its index. -/
theorem formatStreamEvent_assistant_spec_witness :
    formatBlockLine (.text "Hello world") = "Hello world" ∧
    (formatStreamEvent (.assistant [.text "Hello world"])).get? 0 =
      (([ContentBlock.text "Hello world"]).get? 0).map formatBlockLine :=
  ⟨formatStreamEvent_assistant_spec.2.2.2.1 "Hello world" (by decide),
   formatStreamEvent_assistant_spec.2.1 [.text "Hello world"] 0⟩

end Lurker

namespace Lurker

/-! ## Shell-session marker protocol (pkg/tui pty session:
`ptySession.RunCommand` and `ptySession.checkMarker`)

`RunCommand` writes `<cmd>; echo "<MARKER>$?"` into the shell and waits for
the drain loop, which accumulates output into a scan buffer and calls
`checkMarker`.  `checkMarker` scans the buffer for the marker with
`strings.Index`, skips each occurrence not followed by a decimal digit (the
echoed command line shows the literal `$?`), and on the first occurrence
followed by digits parses them as the exit code.  The scan is embedded on
the full accumulated output (chunk boundaries abstracted away): the
delivered exit code is the scan's result. -/

/-- The byte-range digit test `rest[end] >= '0' && rest[end] <= '9'`. -/
def isDigitChar (c : Char) : Bool :=
  '0' ≤ c && c ≤ '9'

/-- The decimal value of a run of digit characters. -/
def digitsVal (ds : List Char) : Nat :=
  ds.foldl (fun a c => a * 10 + (c.toNat - '0'.toNat)) 0

/-- The largest value of Go's `int` (64-bit). -/
def goIntMax : Nat :=
  9223372036854775807

/-- `var code int; fmt.Sscanf(rest[:end], "%d", &code)` with the returned
error discarded, as the code does: when the digit run's value overflows
`int`, `Sscanf` fails before assigning and `code` keeps its zero value, so
the delivered exit code is `0`. -/
def sscanfCode (ds : List Char) : Nat :=
  if digitsVal ds ≤ goIntMax then digitsVal ds else 0

/-- The sentinel `__LURKER_DONE_<id>_` built by `RunCommand`. -/
def markerFor (id : String) : List Char :=
  ("__LURKER_DONE_" ++ id ++ "_").data

/-- `strings.Index`: the index of the first occurrence of `needle`. -/
def strIndex (needle : List Char) : List Char → Option Nat
  | [] => if needle.isEmpty then some 0 else none
  | c :: rest =>
    if needle.isPrefixOf (c :: rest) then some 0
    else (strIndex needle rest).map (· + 1)

/-- The scan loop of `ptySession.checkMarker` (lines 140–180 of the pty
session file): find the marker, read the digits that follow; no digits
(the command echo) — continue after the marker; digits — parse and stop.
`fuel` bounds the recursion; each step drops past a marker occurrence, so
`length + 1` fuel always suffices. -/
def checkMarkerGo (marker : List Char) : Nat → List Char → Option Nat
  | 0, _ => none
  | fuel + 1, s =>
    match strIndex marker s with
    | none => none
    | some idx =>
      let rest := s.drop (idx + marker.length)
      let ds := rest.takeWhile isDigitChar
      if ds.isEmpty then checkMarkerGo marker fuel rest
      else some (sscanfCode ds)

/-- `ptySession.checkMarker` on an accumulated scan buffer. -/
def checkMarker (marker s : List Char) : Option Nat :=
  checkMarkerGo marker (s.length + 1) s

/-- The exit code `RunCommand` delivers for command id `id` once the shell
has produced `stream`: the marker scan's result (`none`: still waiting). -/
def runCommandExit (id : String) (stream : List Char) : Option Nat :=
  checkMarker (markerFor id) stream

/-- Whether a stream position starts with a decimal digit. -/
def firstDigit : List Char → Bool
  | [] => false
  | c :: _ => isDigitChar c

/-- The marker is never empty. -/
theorem markerFor_ne_nil (id : String) : markerFor id ≠ [] := by
  unfold markerFor
  intro h
  have := congrArg List.length h
  simp at this

/-- `strIndex` returning `none` means no occurrence anywhere. -/
theorem strIndex_none_spec (needle : List Char) :
    ∀ s : List Char, strIndex needle s = none → ∀ j, ¬ needle <+: s.drop j := by
  intro s
  induction s with
  | nil =>
    intro h j hpre
    unfold strIndex at h
    by_cases hn : needle.isEmpty
    · simp [hn] at h
    · have : needle = [] := by
        simpa using hpre
      simp [this] at hn
  | cons c rest ih =>
    intro h j hpre
    unfold strIndex at h
    by_cases hp : needle.isPrefixOf (c :: rest) = true
    · simp [hp] at h
    · rw [if_neg hp] at h
      cases hrest : strIndex needle rest with
      | some i => simp [hrest] at h
      | none =>
        cases j with
        | zero =>
          exact hp (List.isPrefixOf_iff_prefix.mpr (by simpa using hpre))
        | succ j' =>
          exact ih hrest j' (by simpa using hpre)

/-- `strIndex` returning `some i` means an occurrence at `i` and none
earlier. -/
theorem strIndex_some_spec (needle : List Char) :
    ∀ (s : List Char) (i : Nat), strIndex needle s = some i →
      needle <+: s.drop i ∧ ∀ j, j < i → ¬ needle <+: s.drop j := by
  intro s
  induction s with
  | nil =>
    intro i h
    unfold strIndex at h
    by_cases hn : needle.isEmpty
    · rw [if_pos hn] at h
      obtain rfl : i = 0 := by simpa using h.symm
      refine ⟨by simpa using List.isEmpty_iff.mp hn, ?_⟩
      intro j hj
      omega
    · simp [hn] at h
  | cons c rest ih =>
    intro i h
    unfold strIndex at h
    by_cases hp : needle.isPrefixOf (c :: rest) = true
    · rw [if_pos hp] at h
      obtain rfl : i = 0 := by simpa using h.symm
      refine ⟨by simpa using List.isPrefixOf_iff_prefix.mp hp, ?_⟩
      intro j hj
      omega
    · rw [if_neg hp] at h
      cases hrest : strIndex needle rest with
      | none => simp [hrest] at h
      | some i' =>
        rw [hrest] at h
        obtain rfl : i = i' + 1 := by simpa using h.symm
        obtain ⟨hpre, hmin⟩ := ih i' hrest
        refine ⟨by simpa using hpre, ?_⟩
        intro j hj
        cases j with
        | zero =>
          intro hc
          exact hp (List.isPrefixOf_iff_prefix.mpr (by simpa using hc))
        | succ j' =>
          intro hc
          exact hmin j' (by omega) (by simpa using hc)

/-- A position that does not start with a digit has an empty digit run. -/
theorem takeWhile_empty_of_firstDigit_false (l : List Char)
    (h : firstDigit l = false) : l.takeWhile isDigitChar = [] := by
  cases l with
  | nil => rfl
  | cons c t =>
    have h' : isDigitChar c = false := by simpa [firstDigit] using h
    simp [List.takeWhile_cons, h']

/-- A position that starts with a digit has a non-empty digit run. -/
theorem takeWhile_nonempty_of_firstDigit (l : List Char)
    (h : firstDigit l = true) : (l.takeWhile isDigitChar).isEmpty = false := by
  cases l with
  | nil => simp [firstDigit] at h
  | cons c t =>
    have h' : isDigitChar c = true := by simpa [firstDigit] using h
    simp [List.takeWhile_cons, h']

/-- An occurrence of a non-empty marker fits inside the stream. -/
theorem occurrence_bound {m s : List Char} {i : Nat} (hm : m ≠ [])
    (h : m <+: s.drop i) : i + m.length ≤ s.length := by
  have h1 : m.length ≤ s.length - i := by
    simpa [List.length_drop] using h.length_le
  have h2 : 0 < m.length := List.length_pos.mpr hm
  by_cases hi : i ≤ s.length
  · omega
  · exfalso
    have : s.drop i = [] := List.drop_eq_nil_of_le (by omega)
    rw [this] at h
    exact hm (List.prefix_nil.mp h)

/-- The scan finds the first digit-carrying occurrence, provided every
earlier occurrence is digit-less and ends at or before it (no overlap). -/
theorem checkMarkerGo_finds (m : List Char) (hm : m ≠ []) :
    ∀ (fuel : Nat) (s : List Char) (k : Nat), s.length < fuel →
      m <+: s.drop k →
      firstDigit (s.drop (k + m.length)) = true →
      (∀ j, j < k → m <+: s.drop j →
        firstDigit (s.drop (j + m.length)) = false ∧ j + m.length ≤ k) →
      checkMarkerGo m fuel s =
        some (sscanfCode ((s.drop (k + m.length)).takeWhile isDigitChar)) := by
  intro fuel
  induction fuel with
  | zero =>
    intro s k hlen
    exact absurd hlen (Nat.not_lt_zero _)
  | succ fuel ih =>
    intro s k hlen hk hd hprev
    unfold checkMarkerGo
    cases hidx : strIndex m s with
    | none => exact absurd hk (strIndex_none_spec m s hidx k)
    | some i =>
      obtain ⟨hpre, hmin⟩ := strIndex_some_spec m s i hidx
      have hik : i ≤ k := le_of_not_lt (fun hki => hmin k hki hk)
      dsimp only
      rcases Nat.eq_or_lt_of_le hik with rfl | hilt
      · rw [if_neg (by simp [takeWhile_nonempty_of_firstDigit _ hd])]
      · obtain ⟨hnd, hle⟩ := hprev i hilt hpre
        rw [takeWhile_empty_of_firstDigit_false _ hnd,
          if_pos (by simp)]
        have hmlen : 0 < m.length := List.length_pos.mpr hm
        have hbound : i + m.length ≤ s.length := occurrence_bound hm hpre
        have hdrop : ∀ t, (s.drop (i + m.length)).drop t = s.drop (i + m.length + t) :=
          fun t => List.drop_drop t (i + m.length) s
        have hlen' : (s.drop (i + m.length)).length < fuel := by
          rw [List.length_drop]
          omega
        have hk' : m <+: (s.drop (i + m.length)).drop (k - (i + m.length)) := by
          rw [hdrop, show i + m.length + (k - (i + m.length)) = k by omega]
          exact hk
        have hd' : firstDigit
            ((s.drop (i + m.length)).drop (k - (i + m.length) + m.length)) = true := by
          rw [hdrop, show i + m.length + (k - (i + m.length) + m.length) = k + m.length
            by omega]
          exact hd
        have hprev' : ∀ j, j < k - (i + m.length) →
            m <+: (s.drop (i + m.length)).drop j →
            firstDigit ((s.drop (i + m.length)).drop (j + m.length)) = false ∧
              j + m.length ≤ k - (i + m.length) := by
          intro j hj hpj
          rw [hdrop] at hpj
          obtain ⟨ha, hb⟩ := hprev (i + m.length + j) (by omega) hpj
          refine ⟨?_, by omega⟩
          rw [hdrop, show i + m.length + (j + m.length) = i + m.length + j + m.length
            by omega]
          exact ha
        have := ih (s.drop (i + m.length)) (k - (i + m.length)) hlen' hk' hd' hprev'
        rw [this, hdrop,
          show i + m.length + (k - (i + m.length) + m.length) = k + m.length by omega]

end Lurker

namespace Lurker

/-- Claim C2 amended: in a PTY output stream where an occurrence of the
marker at position `k` is followed by decimal digits whose value fits in
Go's `int`, every earlier occurrence is digit-less (as the echoed `$?` is)
and ends at or before `k` (marker occurrences do not overlap),
`RunCommand` skips the digit-less occurrences and returns the integer
parsed from the digits at `k`.  (On an overflowing digit run the discarded
`Sscanf` error leaves the zero value, delivering `0` — see `sscanfCode`.) -/
theorem runCommand_marker_spec (id : String) (s : List Char) (k : Nat)
    (hk : markerFor id <+: s.drop k)
    (hd : firstDigit (s.drop (k + (markerFor id).length)) = true)
    (hprev : ∀ j, j < k → markerFor id <+: s.drop j →
      firstDigit (s.drop (j + (markerFor id).length)) = false ∧
        j + (markerFor id).length ≤ k)
    (hfit : digitsVal ((s.drop (k + (markerFor id).length)).takeWhile isDigitChar) ≤
      goIntMax) :
    runCommandExit id s =
      some (digitsVal ((s.drop (k + (markerFor id).length)).takeWhile isDigitChar)) := by
  have h := checkMarkerGo_finds (markerFor id) (markerFor_ne_nil id) (s.length + 1) s k
    (Nat.lt_succ_self _) hk hd hprev
  show checkMarkerGo (markerFor id) (s.length + 1) s = _
  rw [h]
  unfold sscanfCode
  rw [if_pos hfit]

/-- A well-formed captured stream: the echoed command line shows the marker
with the literal `$?`, the shell's expansion later shows it with the exit
status digits. -/
def echoStream : List Char :=
  "__LURKER_DONE_1_$?__LURKER_DONE_1_0\n".data

/-- Witness for the amended C2: on the echo-then-digits stream the scan
skips the echo and returns exit status 0 (the digit-carrying occurrence is
at position 18). -/
theorem runCommand_marker_spec_witness :
    runCommandExit "1" echoStream = some 0 := by
  rw [runCommand_marker_spec "1" echoStream 18 (by decide) (by decide) (by decide)
    (by decide)]
  decide

/-- A stream in which the marker's self-overlap (it both starts and ends
with `_`) places the digit-carrying occurrence one character before the end
of a digit-less one: occurrences at 0 (echo, `$?`), 18 (digit-less) and 33
(followed by `7`). -/
def overlapStream : List Char :=
  ("__LURKER_DONE_1_$?" ++ "__LURKER_DONE_1" ++ "__LURKER_DONE_1_" ++ "7").data

/-- Counterexample to C2 as stated: the marker first appears followed by the
literal `$?` and later appears followed by a decimal digit, yet the scan
returns nothing — skipping a digit-less occurrence jumps past its end, over
the start of the overlapping digit-carrying occurrence. -/
theorem runCommand_marker_counterexample :
    markerFor "1" <+: overlapStream ∧
    (overlapStream.drop (markerFor "1").length).take 2 = ['$', '?'] ∧
    markerFor "1" <+: overlapStream.drop 33 ∧
    firstDigit (overlapStream.drop (33 + (markerFor "1").length)) = true ∧
    runCommandExit "1" overlapStream = none := by
  refine ⟨by decide, by decide, by decide, by decide, by decide⟩

end Lurker
